import Mathlib

/-!
Verification of the storage db-models of botanix-labs/reth
(crates/storage/db-models/src): the wallet-state sync record
(`wallet_sync.rs`), the snapshot / chunk structures (`chunks.rs`) and the
runtime-version ordering (`activation_manager.rs`), shallowly embedded in
Lean 4. Bytes are modelled as `List Nat` (each entry one byte), `B256` and
`B512` values as byte lists, machine integers as `Nat` (with explicit
`% 2 ^ w` wherever the source wraps). SHA-256 is implemented concretely so
the hash functions of the source are embedded in full.
-/

namespace BotanixDbModels

/-! ## SHA-256 over byte lists

A direct implementation of FIPS 180-4 SHA-256 on `List Nat` (bytes), with
32-bit words as `Nat` reduced modulo `2 ^ 32`. `sha2::Sha256` of the source,
used by incremental `update` calls, hashes the concatenation of all the
updated byte slices; the embedding therefore exposes one function
`sha256 : List Nat → List Nat` applied to that concatenation. -/

/-- 2 to the 32, the word modulus. -/
def M32 : Nat := 4294967296

/-- Right rotation of a 32-bit word. -/
def rotr32 (n x : Nat) : Nat :=
  ((x >>> n) ||| (x <<< (32 - n))) % M32

/-- SHA-256 small sigma 0. -/
def ssig0 (x : Nat) : Nat := (rotr32 7 x) ^^^ (rotr32 18 x) ^^^ (x >>> 3)

/-- SHA-256 small sigma 1. -/
def ssig1 (x : Nat) : Nat := (rotr32 17 x) ^^^ (rotr32 19 x) ^^^ (x >>> 10)

/-- SHA-256 big sigma 0. -/
def bsig0 (x : Nat) : Nat := (rotr32 2 x) ^^^ (rotr32 13 x) ^^^ (rotr32 22 x)

/-- SHA-256 big sigma 1. -/
def bsig1 (x : Nat) : Nat := (rotr32 6 x) ^^^ (rotr32 11 x) ^^^ (rotr32 25 x)

/-- SHA-256 choice function. -/
def ch32 (x y z : Nat) : Nat := (x &&& y) ^^^ ((x ^^^ (M32 - 1)) &&& z)

/-- SHA-256 majority function. -/
def maj32 (x y z : Nat) : Nat := (x &&& y) ^^^ (x &&& z) ^^^ (y &&& z)

/-- The 64 SHA-256 round constants (FIPS 180-4, written in decimal). -/
def K256 : List Nat :=
  [1116352408, 1899447441, 3049323471, 3921009573, 961987163, 1508970993,
   2453635748, 2870763221, 3624381080, 310598401, 607225278, 1426881987,
   1925078388, 2162078206, 2614888103, 3248222580, 3835390401, 4022224774,
   264347078, 604807628, 770255983, 1249150122, 1555081692, 1996064986,
   2554220882, 2821834349, 2952996808, 3210313671, 3336571891, 3584528711,
   113926993, 338241895, 666307205, 773529912, 1294757372, 1396182291,
   1695183700, 1986661051, 2177026350, 2456956037, 2730485921, 2820302411,
   3259730800, 3345764771, 3516065817, 3600352804, 4094571909, 275423344,
   430227734, 506948616, 659060556, 883997877, 958139571, 1322822218,
   1537002063, 1747873779, 1955562222, 2024104815, 2227730452, 2361852424,
   2428436474, 2756734187, 3204031479, 3329325298]

/-- The initial SHA-256 state (FIPS 180-4, written in decimal). -/
def H0 : List Nat :=
  [1779033703, 3144134277, 1013904242, 2773480762,
   1359893119, 2600822924, 528734635, 1541459225]

/-- A natural number as 8 big-endian bytes (the bit-length field of the
SHA-256 padding). -/
def u64BE (n : Nat) : List Nat :=
  [n / 2 ^ 56 % 256, n / 2 ^ 48 % 256, n / 2 ^ 40 % 256, n / 2 ^ 32 % 256,
   n / 2 ^ 24 % 256, n / 2 ^ 16 % 256, n / 2 ^ 8 % 256, n % 256]

/-- A 32-bit word as 4 big-endian bytes. -/
def u32BE (n : Nat) : List Nat :=
  [n / 2 ^ 24 % 256, n / 2 ^ 16 % 256, n / 2 ^ 8 % 256, n % 256]

/-- SHA-256 padding: append 0x80, zero bytes up to 56 mod 64, then the
message bit length as 8 big-endian bytes. -/
def sha256pad (msg : List Nat) : List Nat :=
  let zeros := (64 + 56 - (msg.length + 1) % 64) % 64
  msg ++ [0x80] ++ List.replicate zeros 0 ++ u64BE (8 * msg.length)

/-- Group bytes into big-endian 32-bit words. -/
def bytesToWords : List Nat → List Nat
  | a :: b :: c :: d :: rest => (((a * 256 + b) * 256 + c) * 256 + d) :: bytesToWords rest
  | _ => []

/-- Split a byte list into 64-byte blocks. -/
def blocks64 (l : List Nat) : List (List Nat) :=
  if l.isEmpty then [] else l.take 64 :: blocks64 (l.drop 64)
termination_by l.length
decreasing_by
  simp only [List.length_drop]
  rcases l with _ | ⟨x, xs⟩
  · simp_all
  · simp; omega

/-- Extend the 16 message words of a block to the 64-entry schedule. -/
def schedule64 (ws : List Nat) : List Nat :=
  (List.range 48).foldl
    (fun acc _ =>
      let n := acc.length
      acc ++ [(acc.getD (n - 16) 0 + ssig0 (acc.getD (n - 15) 0) +
               acc.getD (n - 7) 0 + ssig1 (acc.getD (n - 2) 0)) % M32])
    ws

/-- One SHA-256 round on the 8-word working state. -/
def round256 (st : List Nat) (wk : Nat × Nat) : List Nat :=
  match st with
  | [a, b, c, d, e, f, g, h] =>
    let t1 := (h + bsig1 e + ch32 e f g + wk.2 + wk.1) % M32
    let t2 := (bsig0 a + maj32 a b c) % M32
    [(t1 + t2) % M32, a, b, c, (d + t1) % M32, e, f, g]
  | st => st

/-- Compress one 64-byte block into the hash state. -/
def compress256 (hs : List Nat) (block : List Nat) : List Nat :=
  let ws := schedule64 (bytesToWords block)
  let fin := (ws.zip K256).foldl round256 hs
  (hs.zip fin).map (fun p => (p.1 + p.2) % M32)

/-- SHA-256 of a byte list: 32 digest bytes. -/
def sha256 (msg : List Nat) : List Nat :=
  ((blocks64 (sha256pad msg)).foldl compress256 H0).map u32BE |>.flatten

/-- A `u64` as its 8 little-endian bytes (`u64::to_le_bytes`). -/
def u64LE (n : Nat) : List Nat :=
  [n % 256, n / 2 ^ 8 % 256, n / 2 ^ 16 % 256, n / 2 ^ 24 % 256,
   n / 2 ^ 32 % 256, n / 2 ^ 40 % 256, n / 2 ^ 48 % 256, n / 2 ^ 56 % 256]

/-! ## Wallet state sync record (`wallet_sync.rs`)

`Bytes` is a byte list, `B256` / `B512` are byte lists (32 and 64 bytes in
the source; no operation below depends on the length). Rust mutation becomes
explicit state passing: a `&mut self` method returning `bool` becomes a
function returning `Bool × WalletStateSyncRecord`. -/

/-- `WalletStateSyncRecord` of `wallet_sync.rs`: session uuid, finalized
pegouts data, their block numbers, expected chunk count and peer id. -/
structure WalletStateSyncRecord where
  uuid : List Nat
  data : List (List Nat)
  blocks : List Nat
  chunks_count : Nat
  peer_id : List Nat
deriving Repr, DecidableEq

namespace WalletStateSyncRecord

/-- `WalletStateSyncRecord::new`: optional initial `(block, bytes)` tuples
are unzipped into the two parallel sequences. -/
def new (peer_id : List Nat) (uuid : List Nat) (chunks_count : Nat)
    (data : Option (List (Nat × List Nat))) : WalletStateSyncRecord :=
  match data with
  | some tuples =>
    { uuid, data := tuples.map Prod.snd, blocks := tuples.map Prod.fst,
      chunks_count, peer_id }
  | none => { uuid, data := [], blocks := [], chunks_count, peer_id }

/-- `WalletStateSyncRecord::add_data_if_not_exists`: reject (no mutation,
`false`) when the payload occurs anywhere in `data` or the block number
occurs anywhere in `blocks`; otherwise push both and return `true`. -/
def add_data_if_not_exists (r : WalletStateSyncRecord) (data_chunk : List Nat)
    (block_number : Nat) : Bool × WalletStateSyncRecord :=
  if r.data.any (fun d => d = data_chunk) then (false, r)
  else if r.blocks.any (fun b => b = block_number) then (false, r)
  else (true, { r with data := r.data ++ [data_chunk],
                       blocks := r.blocks ++ [block_number] })

/-- `WalletStateSyncRecord::append_data_with_block`: delegates to
`add_data_if_not_exists` and drops the boolean. -/
def append_data_with_block (r : WalletStateSyncRecord)
    (additional_data : List Nat) (block_number : Nat) : WalletStateSyncRecord :=
  (r.add_data_if_not_exists additional_data block_number).2

/-- `WalletStateSyncRecord::append_data_block_chunks`: iterates over
`blocks.iter().zip(additional_data_chunks)` — the positional pairing stops
at the shorter vector — feeding each pair to `add_data_if_not_exists`. -/
def append_data_block_chunks (r : WalletStateSyncRecord)
    (additional_data_chunks : List (List Nat)) (blocks : List Nat) :
    WalletStateSyncRecord :=
  (blocks.zip additional_data_chunks).foldl
    (fun r p => (r.add_data_if_not_exists p.2 p.1).2) r

/-- `WalletStateSyncRecord::get_blocks_data_iter`: the positional zip of the
two sequences. -/
def get_blocks_data_iter (r : WalletStateSyncRecord) : List (Nat × List Nat) :=
  r.blocks.zip r.data

/-- `WalletStateSyncRecord::size`: `size_of::<B256>()` (32) for the uuid,
`size_of::<B256>()` (32) again for the peer id — the source uses the `B256`
width for both — plus total payload bytes plus 8 per block number. -/
def size (r : WalletStateSyncRecord) : Nat :=
  let uuid_size := 32
  let peer_id := 32
  let data_size := (r.data.map List.length).sum
  let blocks_size := r.blocks.length * 8
  uuid_size + peer_id + data_size + blocks_size

/-- `WalletStateSyncRecord::set_peer_id`. -/
def set_peer_id (r : WalletStateSyncRecord) (peer_id : List Nat) :
    WalletStateSyncRecord :=
  { r with peer_id }

/-- `WalletStateSyncRecord::set_chunks_count`. -/
def set_chunks_count (r : WalletStateSyncRecord) (chunks_count : Nat) :
    WalletStateSyncRecord :=
  { r with chunks_count }

/-- `WalletStateSyncRecord::set_uuid`. -/
def set_uuid (r : WalletStateSyncRecord) (uuid : List Nat) :
    WalletStateSyncRecord :=
  { r with uuid }

/-- `WalletStateSyncRecord::blocks_and_data_to_set`: the set of distinct
`(block, data)` pairs of the positional zip (a Rust `HashSet` becomes a
`Finset`). -/
def blocks_and_data_to_set (r : WalletStateSyncRecord) :
    Finset (Nat × List Nat) :=
  (r.blocks.zip r.data).toFinset

/-- `WalletStateSyncRecord::get_hash`: SHA-256 over the peer id bytes, then
the uuid bytes, then every payload buffer in arrival order. Block numbers do
not enter the digest. -/
def get_hash (r : WalletStateSyncRecord) : List Nat :=
  sha256 (r.peer_id ++ r.uuid ++ r.data.flatten)

end WalletStateSyncRecord

/-! ## Snapshot chunks and snapshots (`chunks.rs`) -/

/-- `SnapshotChunk` of `chunks.rs`: owning snapshot id, ordered byte
buffers, starting and ending block numbers. -/
structure SnapshotChunk where
  snapshot_id : Nat
  chunk_data : List (List Nat)
  starting_block_number : Nat
  ending_block_number : Nat
deriving Repr, DecidableEq

namespace SnapshotChunk

/-- `SnapshotChunk::new`: one initial buffer, `ending = starting`. -/
def new (snapshot_id : Nat) (starting_block_number : Nat)
    (chunk_data : List Nat) : SnapshotChunk :=
  { snapshot_id, chunk_data := [chunk_data], starting_block_number,
    ending_block_number := starting_block_number }

/-- `SnapshotChunk::append_chunk_data`: push a buffer, overwrite the ending
block number. -/
def append_chunk_data (c : SnapshotChunk) (additional_data : List Nat)
    (ending_block_number : Nat) : SnapshotChunk :=
  { c with chunk_data := c.chunk_data ++ [additional_data],
           ending_block_number }

/-- `SnapshotChunk::size`: `size_of::<u64>()` (8) plus the total buffer
bytes. -/
def size (c : SnapshotChunk) : Nat :=
  8 + (c.chunk_data.map List.length).sum

end SnapshotChunk

/-- `Snapshot` of `chunks.rs`: id, height, ordered chunk ids, ordered block
ids, and the block hash at that height (32 bytes). -/
structure Snapshot where
  id : Nat
  height : Nat
  chunk_ids : List Nat
  block_ids : List Nat
  block_hash : List Nat
deriving Repr, DecidableEq

namespace Snapshot

/-- `Snapshot::new`: empty id sequences. -/
def new (id : Nat) (height : Nat) (block_hash : List Nat) : Snapshot :=
  { id, height, chunk_ids := [], block_ids := [], block_hash }

/-- `Snapshot::add_block_id_if_not_exists`: the source collects `block_ids`
into a `BTreeSet` and pushes only when `insert` succeeds, i.e. exactly when
the id is not already among `block_ids`. -/
def add_block_id_if_not_exists (s : Snapshot) (block_id : Nat) :
    Bool × Snapshot :=
  if s.block_ids.contains block_id then (false, s)
  else (true, { s with block_ids := s.block_ids ++ [block_id] })

/-- `Snapshot::add_chunk_id_if_not_exists`: same pattern over `chunk_ids`. -/
def add_chunk_id_if_not_exists (s : Snapshot) (chunk_id : Nat) :
    Bool × Snapshot :=
  if s.chunk_ids.contains chunk_id then (false, s)
  else (true, { s with chunk_ids := s.chunk_ids ++ [chunk_id] })

/-- `Snapshot::get_latest_chunk_id`. -/
def get_latest_chunk_id (s : Snapshot) : Option Nat :=
  s.chunk_ids.getLast?

/-- `Snapshot::get_oldest_chunk_id`. -/
def get_oldest_chunk_id (s : Snapshot) : Option Nat :=
  s.chunk_ids.head?

/-- `Snapshot::size`: 8 for the height, 32 for the hash, 8 per block id and
8 per chunk id. -/
def size (s : Snapshot) : Nat :=
  8 + 32 + s.block_ids.length * 8 + s.chunk_ids.length * 8

/-- `Snapshot::get_hash`: SHA-256 over `id.to_le_bytes()`,
`height.to_le_bytes()`, each chunk id and each block id as little-endian
`u64` bytes in append order, then the block hash bytes. -/
def get_hash (s : Snapshot) : List Nat :=
  sha256 (u64LE s.id ++ u64LE s.height ++ (s.chunk_ids.map u64LE).flatten ++
    (s.block_ids.map u64LE).flatten ++ s.block_hash)

end Snapshot

/-! ## Runtime version ordering (`activation_manager.rs`) -/

/-- `RuntimeVersion` of `activation_manager.rs`: a major and a minor `u16`
component. -/
structure RuntimeVersion where
  major : Nat
  minor : Nat
deriving Repr, DecidableEq

namespace RuntimeVersion

/-- `RuntimeVersion::new`. -/
def new (major : Nat) (minor : Nat) : RuntimeVersion :=
  { major, minor }

/-- `Ord::cmp` of the source: compare major components; on equality fall
through to the minor components. -/
def cmp (a b : RuntimeVersion) : Ordering :=
  match compare a.major b.major with
  | Ordering.eq => compare a.minor b.minor
  | ordering => ordering

/-- Rust derives `a < b` from `Ord::cmp` returning `Less`. -/
def lt (a b : RuntimeVersion) : Prop := a.cmp b = Ordering.lt

instance : DecidablePred fun p : RuntimeVersion × RuntimeVersion => p.1.lt p.2 :=
  fun p => by unfold lt; infer_instance

instance (a b : RuntimeVersion) : Decidable (a.lt b) := by
  unfold lt; infer_instance

end RuntimeVersion

/-! ## Helper lemmas -/

/-- The parallel-sequence alignment invariant of a wallet state sync
record: the payload sequence and the block sequence have the same length. -/
def WalletStateSyncRecord.aligned (r : WalletStateSyncRecord) : Prop :=
  r.data.length = r.blocks.length

instance (r : WalletStateSyncRecord) : Decidable r.aligned := by
  unfold WalletStateSyncRecord.aligned; infer_instance

/-- A `List.any` equality test is a membership test. -/
theorem any_eq_iff_mem {α : Type} [DecidableEq α] (l : List α) (c : α) :
    l.any (fun d => d = c) = true ↔ c ∈ l := by
  simp

/-- The branch structure of `add_data_if_not_exists`, in membership terms:
reject exactly when the payload or the block number is already present. -/
theorem add_data_if_not_exists_eq (r : WalletStateSyncRecord)
    (c : List Nat) (b : Nat) :
    r.add_data_if_not_exists c b =
      if c ∈ r.data ∨ b ∈ r.blocks then (false, r)
      else (true, { r with data := r.data ++ [c], blocks := r.blocks ++ [b] }) := by
  unfold WalletStateSyncRecord.add_data_if_not_exists
  by_cases hd : c ∈ r.data
  · simp [hd, (any_eq_iff_mem r.data c).2 hd]
  · by_cases hb : b ∈ r.blocks
    · simp [hd, hb, (any_eq_iff_mem r.blocks b).2 hb]
    · have h1 : r.data.any (fun d => d = c) = false := by
        rw [Bool.eq_false_iff]
        intro hc
        exact hd ((any_eq_iff_mem r.data c).1 hc)
      have h2 : r.blocks.any (fun x => x = b) = false := by
        rw [Bool.eq_false_iff]
        intro hc
        exact hb ((any_eq_iff_mem r.blocks b).1 hc)
      simp [h1, h2, hd, hb]

/-- One deduplicating insert preserves the alignment invariant. -/
theorem aligned_add (r : WalletStateSyncRecord) (c : List Nat) (b : Nat)
    (h : r.aligned) : (r.add_data_if_not_exists c b).2.aligned := by
  rw [add_data_if_not_exists_eq]
  unfold WalletStateSyncRecord.aligned at h ⊢
  split
  · exact h
  · simp [h]

/-- Folding deduplicating inserts over any pair list preserves the
alignment invariant. -/
theorem aligned_foldl (l : List (Nat × List Nat)) (r : WalletStateSyncRecord)
    (h : r.aligned) :
    (l.foldl (fun r p => (r.add_data_if_not_exists p.2 p.1).2) r).aligned := by
  induction l generalizing r with
  | nil => exact h
  | cons p l ih => exact ih _ (aligned_add r p.2 p.1 h)

/-- Zipping is unchanged by truncating both lists at (or beyond) the length
of the shorter one. -/
theorem zip_take_of_min_le {α β : Type} (as : List α) (bs : List β) (n : Nat)
    (h : min as.length bs.length ≤ n) :
    (as.take n).zip (bs.take n) = as.zip bs := by
  induction as generalizing bs n with
  | nil => simp
  | cons a as ih =>
    cases bs with
    | nil => simp
    | cons b bs =>
      cases n with
      | zero => simp only [List.length_cons] at h; omega
      | succ n =>
        simp only [List.take_succ_cons, List.zip_cons_cons, List.cons.injEq,
          true_and]
        apply ih
        simp only [List.length_cons] at h
        omega

/-- Appending one buffer adds its length to a snapshot chunk's size. -/
theorem size_append_chunk_data (c : SnapshotChunk) (d : List Nat) (e : Nat) :
    (c.append_chunk_data d e).size = c.size + d.length := by
  simp [SnapshotChunk.size, SnapshotChunk.append_chunk_data]
  omega

/-- The size of any fold of appends over a chunk. -/
theorem size_foldl_append (l : List (List Nat × Nat)) (c : SnapshotChunk) :
    (l.foldl (fun c p => c.append_chunk_data p.1 p.2) c).size =
      c.size + (l.map (fun p => p.1.length)).sum := by
  induction l generalizing c with
  | nil => simp
  | cons p l ih =>
    simp only [List.foldl_cons, List.map_cons, List.sum_cons]
    rw [ih, size_append_chunk_data]
    omega

/-- `Nat.compare` returns `lt` exactly on strictly smaller arguments. -/
theorem nat_compare_eq_lt (a b : Nat) : compare a b = Ordering.lt ↔ a < b :=
  Nat.compare_eq_lt

/-- `Nat.compare` returns `eq` exactly on equal arguments. -/
theorem nat_compare_eq_eq (a b : Nat) : compare a b = Ordering.eq ↔ a = b :=
  Nat.compare_eq_eq

/-! ## Claim theorems -/

/-- Claim C1: `add_data_if_not_exists(payload, block)` returns `false` and
performs no mutation when the payload already occurs anywhere in the stored
payload sequence or the block number already occurs anywhere in the stored
block sequence — the two axes checked independently; otherwise it appends
the payload and the block and returns `true`. On an empty record, adding
payload `[1,2,3]` at block 100 returns `true` and a subsequent add of
`[1,2,3]` at block 200 returns `false`. -/
theorem claim_C1_add_data_if_not_exists (r : WalletStateSyncRecord)
    (c : List Nat) (b : Nat) (p u : List Nat) (cc : Nat) :
    ((c ∈ r.data ∨ b ∈ r.blocks) → r.add_data_if_not_exists c b = (false, r)) ∧
    (c ∉ r.data → b ∉ r.blocks →
      r.add_data_if_not_exists c b =
        (true, { r with data := r.data ++ [c], blocks := r.blocks ++ [b] })) ∧
    ((WalletStateSyncRecord.new p u cc none).add_data_if_not_exists
        [1, 2, 3] 100).1 = true ∧
    (((WalletStateSyncRecord.new p u cc none).add_data_if_not_exists
        [1, 2, 3] 100).2.add_data_if_not_exists [1, 2, 3] 200).1 = false := by
  refine ⟨fun h => ?_, fun hd hb => ?_, rfl, rfl⟩
  · rw [add_data_if_not_exists_eq, if_pos h]
  · rw [add_data_if_not_exists_eq, if_neg (by tauto)]

/-- Closed witness for claim C1 at a concrete record. -/
theorem claim_C1_witness :
    let r : WalletStateSyncRecord :=
      { uuid := [1], data := [[4, 5]], blocks := [7], chunks_count := 2,
        peer_id := [9] }
    r.add_data_if_not_exists [4, 5] 8 = (false, r) ∧
    r.add_data_if_not_exists [6] 7 = (false, r) ∧
    r.add_data_if_not_exists [6] 8 =
      (true, { uuid := [1], data := [[4, 5], [6]], blocks := [7, 8],
               chunks_count := 2, peer_id := [9] }) := by
  refine ⟨?_, ?_, ?_⟩
  · exact (claim_C1_add_data_if_not_exists _ [4, 5] 8 [] [] 0).1
      (Or.inl (by decide))
  · exact (claim_C1_add_data_if_not_exists _ [6] 7 [] [] 0).1
      (Or.inr (by decide))
  · exact (claim_C1_add_data_if_not_exists _ [6] 8 [] [] 0).2.1
      (by decide) (by decide)

/-- Claim C2: the payload sequence and the block sequence of a wallet state
sync record have equal length after construction (with or without initial
pairs) and the equality is preserved by `append_data_with_block`,
`append_data_block_chunks`, `add_data_if_not_exists` and the three
setters. -/
theorem claim_C2_aligned_invariant (p u : List Nat) (cc : Nat)
    (ts : Option (List (Nat × List Nat))) (r : WalletStateSyncRecord)
    (d : List Nat) (b : Nat) (ds : List (List Nat)) (bs : List Nat)
    (pid uid : List Nat) (k : Nat) :
    (WalletStateSyncRecord.new p u cc ts).aligned ∧
    (r.aligned → (r.append_data_with_block d b).aligned) ∧
    (r.aligned → (r.append_data_block_chunks ds bs).aligned) ∧
    (r.aligned → (r.add_data_if_not_exists d b).2.aligned) ∧
    (r.aligned → (r.set_peer_id pid).aligned) ∧
    (r.aligned → (r.set_chunks_count k).aligned) ∧
    (r.aligned → (r.set_uuid uid).aligned) := by
  refine ⟨?_, fun h => aligned_add r d b h, fun h => aligned_foldl _ r h,
    fun h => aligned_add r d b h, fun h => h, fun h => h, fun h => h⟩
  cases ts with
  | none => rfl
  | some tuples => simp [WalletStateSyncRecord.new,
      WalletStateSyncRecord.aligned]

/-- Closed witness for claim C2 at a concrete record. -/
theorem claim_C2_witness :
    let r : WalletStateSyncRecord :=
      { uuid := [], data := [[1]], blocks := [4], chunks_count := 0,
        peer_id := [] }
    r.aligned ∧ (r.append_data_block_chunks [[2], [3]] [5]).aligned :=
  ⟨by decide,
    (claim_C2_aligned_invariant [] [] 0 none _ [] 0 [[2], [3]] [5] [] [] 0).2.2.1
      (by decide)⟩

/-- Claim C3: for a chunk id `c` not currently present, the first
`add_chunk_id_if_not_exists(c)` returns `true` and appends `c` (length grows
by one); a second call with the same `c` returns `false` and leaves the
entire snapshot unchanged. The same holds for `add_block_id_if_not_exists`
over the block-id sequence. -/
theorem claim_C3_dedup_insert (s : Snapshot) (c b : Nat) :
    (c ∉ s.chunk_ids →
      s.add_chunk_id_if_not_exists c =
        (true, { s with chunk_ids := s.chunk_ids ++ [c] }) ∧
      (s.add_chunk_id_if_not_exists c).2.chunk_ids.length =
        s.chunk_ids.length + 1 ∧
      (s.add_chunk_id_if_not_exists c).2.add_chunk_id_if_not_exists c =
        (false, (s.add_chunk_id_if_not_exists c).2)) ∧
    (b ∉ s.block_ids →
      s.add_block_id_if_not_exists b =
        (true, { s with block_ids := s.block_ids ++ [b] }) ∧
      (s.add_block_id_if_not_exists b).2.block_ids.length =
        s.block_ids.length + 1 ∧
      (s.add_block_id_if_not_exists b).2.add_block_id_if_not_exists b =
        (false, (s.add_block_id_if_not_exists b).2)) := by
  constructor
  · intro hc
    have hfirst : s.add_chunk_id_if_not_exists c =
        (true, { s with chunk_ids := s.chunk_ids ++ [c] }) := by
      unfold Snapshot.add_chunk_id_if_not_exists
      rw [if_neg (by simpa using hc)]
    refine ⟨hfirst, by rw [hfirst]; simp, ?_⟩
    rw [hfirst]
    unfold Snapshot.add_chunk_id_if_not_exists
    rw [if_pos (by simp)]
  · intro hb
    have hfirst : s.add_block_id_if_not_exists b =
        (true, { s with block_ids := s.block_ids ++ [b] }) := by
      unfold Snapshot.add_block_id_if_not_exists
      rw [if_neg (by simpa using hb)]
    refine ⟨hfirst, by rw [hfirst]; simp, ?_⟩
    rw [hfirst]
    unfold Snapshot.add_block_id_if_not_exists
    rw [if_pos (by simp)]

/-- Closed witness for claim C3 at a concrete snapshot. -/
theorem claim_C3_witness :
    let s : Snapshot := { id := 1, height := 2, chunk_ids := [10],
                          block_ids := [20], block_hash := [0] }
    s.add_chunk_id_if_not_exists 11 =
      (true, { s with chunk_ids := [10, 11] }) ∧
    ({ s with chunk_ids := [10, 11] } : Snapshot).add_chunk_id_if_not_exists
        11 = (false, { s with chunk_ids := [10, 11] }) ∧
    s.add_block_id_if_not_exists 21 =
      (true, { s with block_ids := [20, 21] }) := by
  refine ⟨?_, ?_, ?_⟩
  · exact ((claim_C3_dedup_insert _ 11 0).1 (by decide)).1
  · have h := ((claim_C3_dedup_insert
      { id := 1, height := 2, chunk_ids := [10], block_ids := [20],
        block_hash := [0] } 11 0).1 (by decide)).2.2
    simpa using h
  · exact ((claim_C3_dedup_insert _ 0 21).2 (by decide)).1

/-- Claim C4: `Snapshot::get_hash` is pure and deterministic — two snapshots
with equal id, height, chunk-id sequence, block-id sequence and block hash
produce the same digest, however each was assembled — and the digest is the
SHA-256 of exactly those fields serialized in that order. -/
theorem claim_C4_snapshot_hash_deterministic (s1 s2 : Snapshot)
    (h1 : s1.id = s2.id) (h2 : s1.height = s2.height)
    (h3 : s1.chunk_ids = s2.chunk_ids) (h4 : s1.block_ids = s2.block_ids)
    (h5 : s1.block_hash = s2.block_hash) :
    s1.get_hash = s2.get_hash ∧
    s1.get_hash = sha256 (u64LE s1.id ++ u64LE s1.height ++
      (s1.chunk_ids.map u64LE).flatten ++ (s1.block_ids.map u64LE).flatten ++
      s1.block_hash) := by
  unfold Snapshot.get_hash
  rw [h1, h2, h3, h4, h5]
  exact ⟨rfl, rfl⟩

/-- Closed witness for claim C4: a snapshot assembled through `new` and the
dedup inserts hashes the same as one assembled as a literal record with the
same field values. -/
theorem claim_C4_witness :
    ((((Snapshot.new 1 5 [0, 0]).add_chunk_id_if_not_exists
        3).2.add_block_id_if_not_exists 9).2).get_hash =
      ({ id := 1, height := 5, chunk_ids := [3], block_ids := [9],
         block_hash := [0, 0] } : Snapshot).get_hash :=
  (claim_C4_snapshot_hash_deterministic _ _ (by decide) (by decide)
    (by decide) (by decide) (by decide)).1

/-- Claim C5: `WalletStateSyncRecord::get_hash` does not depend on the block
sequence — records with equal peer id, uuid and payload sequences hash
identically, whatever their blocks. -/
theorem claim_C5_wallet_hash_ignores_blocks (r1 r2 : WalletStateSyncRecord)
    (hp : r1.peer_id = r2.peer_id) (hu : r1.uuid = r2.uuid)
    (hd : r1.data = r2.data) : r1.get_hash = r2.get_hash := by
  unfold WalletStateSyncRecord.get_hash
  rw [hp, hu, hd]

/-- Closed witness for claim C5: equal payloads, entirely different block
sequences, same digest. -/
theorem claim_C5_witness :
    ({ uuid := [1], data := [[2], [3]], blocks := [10], chunks_count := 0,
       peer_id := [4] } : WalletStateSyncRecord).get_hash =
    ({ uuid := [1], data := [[2], [3]], blocks := [100, 200],
       chunks_count := 0, peer_id := [4] } : WalletStateSyncRecord).get_hash :=
  claim_C5_wallet_hash_ignores_blocks _ _ (by decide) (by decide) (by decide)

/-- Claim C6: for every snapshot chunk, `size()` is 8 plus the sum of the
lengths of all its byte buffers; in particular for a chunk built by `new`
and any sequence of `append_chunk_data` calls, the size is 8 plus the
initial buffer length plus the appended buffer lengths. -/
theorem claim_C6_chunk_size (sid start : Nat) (init : List Nat)
    (appends : List (List Nat × Nat)) (c : SnapshotChunk) :
    c.size = 8 + (c.chunk_data.map List.length).sum ∧
    (appends.foldl (fun c p => c.append_chunk_data p.1 p.2)
        (SnapshotChunk.new sid start init)).size =
      8 + (init.length + (appends.map (fun p => p.1.length)).sum) := by
  refine ⟨rfl, ?_⟩
  rw [size_foldl_append]
  simp [SnapshotChunk.new, SnapshotChunk.size]
  omega

/-- Claim C7: for any peer id and uuid, a record created with
`chunks_count = 1` and no initial pairs, after one
`append_data_with_block([9, 9], 5)`, has `size() = 32 + 32 + 2 + 8 = 74`. -/
theorem claim_C7_size_after_one_append (P U : List Nat) :
    ((WalletStateSyncRecord.new P U 1 none).append_data_with_block
        [9, 9] 5).size = 32 + 32 + 2 + 8 :=
  rfl

/-- Claim C8: runtime versions are ordered lexicographically, major first
and minor as tiebreak: the chain `(0,0) < (0,1) < (0,10) < (1,0) < (2,0)`
holds under full pairwise comparison, and in general `a < b` iff
`a.major < b.major` or `a.major = b.major` and `a.minor < b.minor`. -/
theorem claim_C8_runtime_version_order (a b : RuntimeVersion) :
    ((RuntimeVersion.new 0 0).lt (RuntimeVersion.new 0 1) ∧
     (RuntimeVersion.new 0 0).lt (RuntimeVersion.new 0 10) ∧
     (RuntimeVersion.new 0 0).lt (RuntimeVersion.new 1 0) ∧
     (RuntimeVersion.new 0 0).lt (RuntimeVersion.new 2 0) ∧
     (RuntimeVersion.new 0 1).lt (RuntimeVersion.new 0 10) ∧
     (RuntimeVersion.new 0 1).lt (RuntimeVersion.new 1 0) ∧
     (RuntimeVersion.new 0 1).lt (RuntimeVersion.new 2 0) ∧
     (RuntimeVersion.new 0 10).lt (RuntimeVersion.new 1 0) ∧
     (RuntimeVersion.new 0 10).lt (RuntimeVersion.new 2 0) ∧
     (RuntimeVersion.new 1 0).lt (RuntimeVersion.new 2 0)) ∧
    (a.lt b ↔ a.major < b.major ∨ (a.major = b.major ∧ a.minor < b.minor)) := by
  refine ⟨by decide, ?_⟩
  unfold RuntimeVersion.lt RuntimeVersion.cmp
  rcases Nat.lt_trichotomy a.major b.major with h | h | h
  · simp [(nat_compare_eq_lt a.major b.major).2 h, h]
  · rw [(nat_compare_eq_eq a.major b.major).2 h]
    simp [h, nat_compare_eq_lt]
  · have hgt : compare a.major b.major = Ordering.gt := Nat.compare_eq_gt.2 h
    simp [hgt]
    omega

/-- Claim C9: `new` with initial pairs stores them verbatim — blocks are the
first components in order, payloads the second components in order, with no
deduplication (a doubled payload in the seed is kept twice), unlike the
`add_data_if_not_exists` path which rejects the duplicate. -/
theorem claim_C9_new_stores_verbatim (p u : List Nat) (cc : Nat)
    (ts : List (Nat × List Nat)) :
    (WalletStateSyncRecord.new p u cc (some ts)).data = ts.map Prod.snd ∧
    (WalletStateSyncRecord.new p u cc (some ts)).blocks = ts.map Prod.fst ∧
    (WalletStateSyncRecord.new p u cc
        (some [(5, [7]), (6, [7])])).data = [[7], [7]] ∧
    (((WalletStateSyncRecord.new p u cc none).add_data_if_not_exists
        [7] 5).2.add_data_if_not_exists [7] 6).1 = false :=
  ⟨rfl, rfl, rfl, rfl⟩

/-- Claim C10: `append_data_block_chunks` with vectors of unequal length
processes exactly the first `min` pairs — the call is equal to the call on
both vectors truncated to the shorter length — and preserves the
equal-length invariant of the two stored sequences. -/
theorem claim_C10_append_chunks_truncates (r : WalletStateSyncRecord)
    (ds : List (List Nat)) (bs : List Nat) :
    r.append_data_block_chunks ds bs =
      r.append_data_block_chunks (ds.take (min ds.length bs.length))
        (bs.take (min ds.length bs.length)) ∧
    (r.aligned → (r.append_data_block_chunks ds bs).aligned) := by
  refine ⟨?_, fun h => aligned_foldl _ r h⟩
  unfold WalletStateSyncRecord.append_data_block_chunks
  rw [zip_take_of_min_le bs ds (min ds.length bs.length) (by omega)]

/-- Closed witness for claim C10: three payloads against one block leave an
aligned record. -/
theorem claim_C10_witness :
    (({ uuid := [], data := [], blocks := [], chunks_count := 0,
        peer_id := [] } : WalletStateSyncRecord).append_data_block_chunks
      [[1], [2], [3]] [5]).aligned :=
  (claim_C10_append_chunks_truncates _ [[1], [2], [3]] [5]).2 (by decide)

end BotanixDbModels
